import Mathlib

/-!
Shallow embedding of the predicate-specification compiler of this
repository (`meta/constraints.py`): the FlatZinc predicate parser and
the Rust source emitters, together with theorems settling the
specification claims about them.

Strings are modelled as Lean `String`s (lists of characters); Python
exceptions are modelled with `Except String`, the error payload being
the exception message.  Input text is modelled as `\n`-separated lines,
the subset of `str.splitlines` exercised by this tool.
-/

namespace FznGen

/-- Four spaces, the `TAB` constant of the generator. -/
def TAB : String := "    "

/-- Python `"".join(l)`: concatenation of a list of strings. -/
def joinStr : List String → String
  | [] => ""
  | s :: l => s ++ joinStr l

/-- Python `sep.join(l)`: the elements of `l` interleaved with `sep`. -/
def joinSep (sep : String) : List String → String
  | [] => ""
  | [x] => x
  | x :: y :: xs => x ++ sep ++ joinSep sep (y :: xs)

/-- Python `s.split(sep)` for a single-character separator: splits at every
occurrence of `sep`, keeping empty parts (`"".split(sep) == [""]`). -/
def splitCh (sep : Char) : List Char → List (List Char)
  | [] => [[]]
  | c :: cs =>
    match splitCh sep cs with
    | h :: t => if c = sep then [] :: h :: t else (c :: h) :: t
    | [] => [[]]

/-- Python `str.strip()` whitespace characters (the ASCII ones). -/
def isSpace (c : Char) : Bool :=
  c = ' ' || c = '\t' || c = '\n' || c = '\r' || c = '\x0b' || c = '\x0c'

/-- Python `s.strip()`: drop whitespace from both ends. -/
def pyTrim (s : String) : String :=
  String.mk (((s.data.dropWhile isSpace).reverse.dropWhile isSpace).reverse)

/-- Python `s.splitlines()`, modelled for `\n` line terminators (the
convention of this tool's input files): split at every newline and drop
the trailing empty segment that a terminating newline produces (so
`"a\n"` yields `["a"]`, `""` yields `[]`, and an interior blank line is
kept, as in Python). -/
def splitlines (s : String) : List String :=
  let parts := (splitCh '\n' s.data).map String.mk
  if parts.getLast? = some "" then parts.dropLast else parts

/-- Name-fixup rule of the source (`fix_as_bs`): a two-character string is
truncated to its first character, anything else is unchanged. -/
def fix_as_bs (s : String) : String :=
  if s.length = 2 then String.mk (s.data.take 1) else s

/-- Python `s.capitalize()`: first character uppercased, rest lowercased. -/
def pyCapitalize (s : String) : String :=
  match s.data with
  | [] => ""
  | c :: cs => String.mk (c.toUpper :: cs.map Char.toLower)

/-- Function `upper_camel` of the source: split on `_`, capitalize each word,
concatenate with no separator. -/
def upper_camel (s : String) : String :=
  joinStr (((splitCh '_' s.data).map String.mk).map pyCapitalize)

/-- Boolean fullmatch of the identifier regex `[A-Za-z][A-Za-z0-9_]*`
(`Char.isAlpha`/`Char.isAlphanum` are exactly the ASCII classes). -/
def isIdentifier (s : String) : Bool :=
  match s.data with
  | [] => false
  | c :: cs => c.isAlpha && cs.all (fun d => d.isAlphanum || d = '_')

/-- Function `Identifier.check` of the source: return the string itself when it
matches the identifier pattern, raise a `ParsingError` otherwise. -/
def Identifier.check (s : String) : Except String String :=
  if isIdentifier s then .ok s
  else .error ("\x27" ++ s ++ "\x27 is not a valid identifier")

/-- Boolean list prefix test. -/
def isPrefixCh : List Char → List Char → Bool
  | [], _ => true
  | _ :: _, [] => false
  | a :: as, b :: bs => a == b && isPrefixCh as bs

/-- Boolean contiguous-sublist test: Python `needle in hay` on strings. -/
def isSubCh (needle : List Char) : List Char → Bool
  | [] => needle.isEmpty
  | c :: cs => isPrefixCh needle (c :: cs) || isSubCh needle cs

/-- One row of the type registry (`ArgType` of the source). -/
structure ArgType where
  flatzinc_type : String
  rust_type : String
  rust_import : String
  rust_expr_fn : String
  need_rc : Bool
  is_array : Bool
deriving DecidableEq

/-- Constructor `ArgType.__init__`: the two flags are derived by substring tests on the
Rust type (`"Rc" in rust_type`, `"Vec" in rust_type`). -/
def ArgType.make (ft rt ri rf : String) : ArgType :=
  ⟨ft, rt, ri, rf, isSubCh "Rc".data rt.data, isSubCh "Vec".data rt.data⟩

def argTypeInt : ArgType :=
  ArgType.make "int" "Int" "use crate::fzn::types::Int;\n" "int_from_expr"

def argTypeVarInt : ArgType :=
  ArgType.make "var int" "Rc<VarInt>" "use crate::fzn::var::VarInt;\n" "var_int_from_expr"

def argTypeArrInt : ArgType :=
  ArgType.make "array [int] of int" "Vec<Int>" "use crate::fzn::types::Int;\n" "vec_int_from_expr"

def argTypeArrVarInt : ArgType :=
  ArgType.make "array [int] of var int" "Vec<Rc<VarInt>>" "use crate::fzn::var::VarInt;\n"
    "vec_var_int_from_expr"

def argTypeBool : ArgType :=
  ArgType.make "bool" "bool" "" "bool_from_expr"

def argTypeVarBool : ArgType :=
  ArgType.make "var bool" "Rc<VarBool>" "use crate::fzn::var::VarBool;\n" "var_bool_from_expr"

def argTypeArrBool : ArgType :=
  ArgType.make "array [int] of bool" "Vec<bool>" "" "vec_bool_from_expr"

def argTypeArrVarBool : ArgType :=
  ArgType.make "array [int] of var bool" "Vec<Rc<VarBool>>" "use crate::fzn::var::VarBool;\n"
    "vec_var_bool_from_expr"

/-- The closed type registry (`Arg.ARG_TYPE_FACTORY` of the source), in
declaration order. -/
def ARG_TYPES : List ArgType :=
  [argTypeInt, argTypeVarInt, argTypeArrInt, argTypeArrVarInt,
   argTypeBool, argTypeVarBool, argTypeArrBool, argTypeArrVarBool]

/-- Function `ArgTypeFactory.from_str`: the loop tries each registry entry, whose own
`from_str` succeeds exactly when the token equals its `flatzinc_type`; so
the result is the first registry entry with that exact token, and a
`ParsingError` when none matches. -/
def ArgTypeFactory.from_str (s : String) : Except String ArgType :=
  match ARG_TYPES.find? (fun t => t.flatzinc_type == s) with
  | some t => .ok t
  | none => .error ("\x27" ++ s ++ "\x27 is not a valid arg type")

/-- One parsed argument (`Arg` of the source). -/
structure Arg where
  type : ArgType
  identifier : String
deriving DecidableEq

/-- Constructor `Arg.__init__`: stores the fixup-adjusted identifier. -/
def Arg.make (t : ArgType) (ident : String) : Arg := ⟨t, fix_as_bs ident⟩

/-- Function `Arg.from_str`: split on `:` into exactly two parts, strip both, resolve
the type, validate the identifier, then construct. -/
def Arg.from_str (s : String) : Except String Arg :=
  match (splitCh ':' s.data).map String.mk with
  | [rawType, rawId] => do
    let t ← ArgTypeFactory.from_str (pyTrim rawType)
    let i ← Identifier.check (pyTrim rawId)
    .ok (Arg.make t i)
  | _ => .error ("\x27" ++ s ++ "\x27 is not a valid arg")

/-- Helper for the predicate regex: split a character list at the first
occurrence of `sep`, `none` when `sep` does not occur. -/
def splitAtFirst (sep : Char) : List Char → Option (List Char × List Char)
  | [] => none
  | c :: cs =>
    if c = sep then some ([], cs)
    else
      match splitAtFirst sep cs with
      | some (l, r) => some (c :: l, r)
      | none => none

/-- Fullmatch of the source regex `predicate ([^(]+)\((.+)\)`: the literal
`"predicate "`, a nonempty first group running to the first `(` (a negated
class, so it may hold any other character), then everything up to the final
`)` as the nonempty second group (`.` does not match `\n`), with the whole
string consumed. -/
def predicateMatch (s : String) : Option (String × String) :=
  if isPrefixCh "predicate ".data s.data then
    match splitAtFirst '(' (s.data.drop 10) with
    | some (g1, after) =>
      if g1 = [] then none
      else
        match after.getLast? with
        | some ')' =>
          let g2 := after.dropLast
          if g2 = [] then none
          else if g2.contains '\n' then none
          else some (String.mk g1, String.mk g2)
        | _ => none
    | none => none
  else none

/-- One parsed predicate declaration (`Predicate` of the source). -/
structure Predicate where
  identifier : String
  rust_name : String
  args : List Arg
deriving DecidableEq

/-- Constructor `Predicate.__init__`: validates the identifier and derives the generated
type name through `upper_camel`. -/
def Predicate.make (ident : String) (args : List Arg) : Except String Predicate := do
  let i ← Identifier.check ident
  .ok ⟨i, upper_camel ident, args⟩

/-- Function `Predicate.from_str`: regex match, split the argument list on literal
commas, parse each argument, then construct (which validates the name). -/
def Predicate.from_str (s : String) : Except String Predicate :=
  match predicateMatch s with
  | none => .error ("\x27" ++ s ++ "\x27 is not a valid predicate")
  | some (ident, rawArgs) => do
    let args ← ((splitCh ',' rawArgs.data).map String.mk).mapM Arg.from_str
    Predicate.make ident args

/-- The comment test of `Predicate.from_file`: `line.startswith("%")`. -/
def isComment (l : String) : Bool :=
  match l.data with
  | c :: _ => c = '%'
  | [] => false

/-- The loop body of `Predicate.from_file`: skip `%`-lines, parse every
other line, abort on the first failure. -/
def fromFileLines : List String → Except String (List Predicate)
  | [] => .ok []
  | l :: ls =>
    if isComment l then fromFileLines ls
    else do
      let p ← Predicate.from_str l
      let ps ← fromFileLines ls
      .ok (p :: ps)

/-- Function `Predicate.from_file`. -/
def Predicate.from_file (s : String) : Except String (List Predicate) :=
  fromFileLines (splitlines s)

/-- Emitter `Arg.rust_attr`. -/
def Arg.rust_attr (a : Arg) : String := a.identifier ++ ": " ++ a.type.rust_type

/-- Emitter `Arg.rust_getter`. -/
def Arg.rust_getter (a : Arg) : String :=
  TAB ++ "pub fn " ++ a.identifier ++ "(&self) -> &" ++ a.type.rust_type ++ " \x7b\n"
  ++ TAB ++ TAB ++ "&self." ++ a.identifier ++ "\n"
  ++ TAB ++ "\x7d\n"

/-- Python `sorted` on strings: ascending lexicographic order. -/
def sortStrings (l : List String) : List String :=
  List.insertionSort (fun a b : String => a ≤ b) l

/-- Python `sorted(set(l))`: the distinct elements of `l` in ascending
order. -/
def sortedDedup (l : List String) : List String := sortStrings l.dedup

/-- The sorted deduplicated conversion-function import lines of
`Predicate.rust_imports`. -/
def Predicate.expr_fn_lines (p : Predicate) : List String :=
  (sortedDedup (p.args.map (fun a => a.type.rust_expr_fn))).map
    (fun f => "use crate::fzn::parser::" ++ f ++ ";\n")

/-- The sorted deduplicated type import lines of `Predicate.rust_imports`. -/
def Predicate.type_import_lines (p : Predicate) : List String :=
  sortedDedup (p.args.map (fun a => a.type.rust_import))

/-- The pieces concatenated by `Predicate.rust_imports`, in emission
order. -/
def Predicate.rust_import_pieces (p : Predicate) : List String :=
  ["use std::rc::Rc;\n", "\n", "use flatzinc::ConstraintItem;\n", "\n"]
  ++ p.expr_fn_lines
  ++ ["use crate::fzn::constraint::Constraint;\n",
      "use crate::fzn::model::Model;\n",
      "use crate::fzn::Fzn;\n"]
  ++ p.type_import_lines

/-- Emitter `Predicate.rust_imports`. -/
def Predicate.rust_imports (p : Predicate) : String := joinStr p.rust_import_pieces

/-- Emitter `Predicate.rust_struct`. -/
def Predicate.rust_struct (p : Predicate) : String :=
  "pub struct " ++ p.rust_name ++ " \x7b\n"
  ++ joinStr (p.args.map (fun a => TAB ++ a.rust_attr ++ ",\n"))
  ++ "\x7d\n"

/-- Emitter `Predicate.rust_new`. -/
def Predicate.rust_new (p : Predicate) : String :=
  TAB ++ "pub fn new(" ++ joinSep ", " (p.args.map Arg.rust_attr) ++ ") -> Self \x7b\n"
  ++ TAB ++ TAB ++ "Self \x7b " ++ joinSep ", " (p.args.map Arg.identifier) ++ " \x7d\n"
  ++ TAB ++ "\x7d\n"

/-- Emitter `Predicate.rust_getters`. -/
def Predicate.rust_getters (p : Predicate) : String :=
  joinSep "\n" (p.args.map Arg.rust_getter)

/-- Emitter `Predicate.rust_try_from_item`. -/
def Predicate.rust_try_from_item (p : Predicate) : String :=
  TAB ++ "pub fn try_from_item(item: ConstraintItem, model: &Model) -> anyhow::Result<Self> \x7b\n"
  ++ TAB ++ TAB ++ "anyhow::ensure!(\n"
  ++ TAB ++ TAB ++ TAB ++ "item.id.as_str() == Self::NAME,\n"
  ++ TAB ++ TAB ++ TAB ++ "\"\x27\x7b\x7d\x27 expected but received \x27\x7b\x7d\x27\",\n"
  ++ TAB ++ TAB ++ TAB ++ "Self::NAME,\n"
  ++ TAB ++ TAB ++ TAB ++ "item.id,\n"
  ++ TAB ++ TAB ++ ");\n"
  ++ TAB ++ TAB ++ "anyhow::ensure!(\n"
  ++ TAB ++ TAB ++ TAB ++ "item.exprs.len() == Self::NB_ARGS,\n"
  ++ TAB ++ TAB ++ TAB ++ "\"\x7b\x7d args expected but received \x7b\x7d\",\n"
  ++ TAB ++ TAB ++ TAB ++ "Self::NB_ARGS,\n"
  ++ TAB ++ TAB ++ TAB ++ "item.exprs.len(),\n"
  ++ TAB ++ TAB ++ ");\n"
  ++ joinStr (p.args.enum.map (fun ia =>
       TAB ++ TAB ++ "let " ++ ia.2.identifier ++ " = " ++ ia.2.type.rust_expr_fn
       ++ "(&item.exprs[" ++ toString ia.1 ++ "], model)?;\n"))
  ++ TAB ++ TAB ++ "Ok(Self::new(" ++ joinSep ", " (p.args.map Arg.identifier) ++ "))\n"
  ++ TAB ++ "\x7d\n"

/-- Emitter `Predicate.rust_impl`. -/
def Predicate.rust_impl (p : Predicate) : String :=
  "impl " ++ p.rust_name ++ " \x7b\n"
  ++ TAB ++ "pub const NAME: &str = \"" ++ p.identifier ++ "\";\n"
  ++ TAB ++ "pub const NB_ARGS: usize = " ++ toString p.args.length ++ ";\n"
  ++ "\n" ++ p.rust_new ++ "\n" ++ p.rust_getters ++ "\n" ++ p.rust_try_from_item ++ "\x7d\n"

/-- The `format!` string literal emitted by `rust_impl_flatzinc` for `n`
arguments, as it appears in the generated source text (quotes and the
escape `\n` included): `"{}({:?}, ..., {:?});\n"`. -/
def fznFormatLiteral (n : Nat) : String :=
  "\"\x7b\x7d(" ++ joinSep ", " (List.replicate n "\x7b:?\x7d") ++ ");\\n\""

/-- The Rust runtime value of `fznFormatLiteral n`: the same characters with
the quotes stripped and the escape `\n` read as a newline. -/
def fznFormatValue (n : Nat) : String :=
  "\x7b\x7d(" ++ joinSep ", " (List.replicate n "\x7b:?\x7d") ++ ");\n"

/-- Emitter `Predicate.rust_impl_flatzinc`. -/
def Predicate.rust_impl_flatzinc (p : Predicate) : String :=
  "impl Fzn for " ++ p.rust_name ++ " \x7b\n"
  ++ TAB ++ "fn fzn(&self) -> String \x7b\n"
  ++ TAB ++ TAB ++ "format!("
  ++ fznFormatLiteral p.args.length
  ++ ", Self::NAME, "
  ++ joinSep ", " (p.args.map (fun a => "self." ++ a.identifier ++ ".fzn()"))
  ++ ")\n"
  ++ TAB ++ "\x7d\n"
  ++ "\x7d\n"

/-- Emitter `Predicate.rust_try_from_constraint`. -/
def Predicate.rust_try_from_constraint (p : Predicate) : String :=
  "impl TryFrom<Constraint> for " ++ p.rust_name ++ " \x7b\n"
  ++ TAB ++ "type Error = anyhow::Error;\n"
  ++ "\n"
  ++ TAB ++ "fn try_from(value: Constraint) -> Result<Self, Self::Error> \x7b\n"
  ++ TAB ++ TAB ++ "match value \x7b\n"
  ++ TAB ++ TAB ++ TAB ++ "Constraint::" ++ p.rust_name ++ "(c) => Ok(c),\n"
  ++ TAB ++ TAB ++ TAB ++ "_ => anyhow::bail!(\"unable to downcast to \x7b\x7d\", Self::NAME),\n"
  ++ TAB ++ TAB ++ "\x7d\n"
  ++ TAB ++ "\x7d\n"
  ++ "\x7d\n"

/-- Emitter `Predicate.rust_from_for_constraint`. -/
def Predicate.rust_from_for_constraint (p : Predicate) : String :=
  "impl From<" ++ p.rust_name ++ "> for Constraint \x7b\n"
  ++ TAB ++ "fn from(value: " ++ p.rust_name ++ ") -> Self \x7b\n"
  ++ TAB ++ TAB ++ "Self::" ++ p.rust_name ++ "(value)\n"
  ++ TAB ++ "\x7d\n"
  ++ "\x7d\n"

/-- The fixed derive annotation prepended to every generated struct. -/
def DERIVE : String := "#[derive(Clone, Debug)]\n"

/-- Emitter `Predicate.rust_file`: the whole per-predicate compilation unit. -/
def Predicate.rust_file (p : Predicate) : String :=
  p.rust_imports ++ "\n" ++ DERIVE ++ p.rust_struct ++ "\n" ++ p.rust_impl ++ "\n"
  ++ p.rust_impl_flatzinc ++ "\n" ++ p.rust_try_from_constraint ++ "\n"
  ++ p.rust_from_for_constraint

/-- Emitter `BuiltinsMod.rust_mods`. -/
def builtinsRustMods (ps : List Predicate) : String :=
  joinStr (ps.map (fun p => "mod " ++ p.identifier ++ ";\n"))

/-- Emitter `BuiltinsMod.rust_uses`. -/
def builtinsRustUses (ps : List Predicate) : String :=
  joinStr (ps.map (fun p => "pub use " ++ p.identifier ++ "::" ++ p.rust_name ++ ";\n"))

/-- Emitter `BuiltinsMod.rust_file`. -/
def builtinsRustFile (ps : List Predicate) : String :=
  builtinsRustMods ps ++ "\n" ++ builtinsRustUses ps

/-- Emitter `ConstraintMod.FILE`: the static wiring unit. -/
def constraintModFILE : String :=
  "pub mod builtins;\nmod constraint;\n\npub use constraint::Constraint;\n"

/-- Emitter `Constraint.rust_enum`. -/
def constraintRustEnum (ps : List Predicate) : String :=
  "pub enum Constraint \x7b\n"
  ++ joinStr (ps.map (fun p => TAB ++ p.rust_name ++ "(" ++ p.rust_name ++ "),\n"))
  ++ "\x7d\n"

/-- Emitter `Constraint.rust_file`: the tagged-union unit. -/
def constraintRustFile (ps : List Predicate) : String :=
  "use crate::fzn::constraint::builtins::*;\n" ++ "\n" ++ DERIVE ++ constraintRustEnum ps

/-- The pipeline of `main` up to the sink: parse the input, then build the
`(path, content)` list, three aggregate units first (as `main` does) and
one unit per predicate after them.  Both sinks (`write_files`,
`print_files`) consume this same list. -/
def compile (input : String) : Except String (List (String × String)) := do
  let predicates ← Predicate.from_file input
  .ok ([("builtins/mod.rs", builtinsRustFile predicates),
        ("constraint.rs", constraintRustFile predicates),
        ("mod.rs", constraintModFILE)]
       ++ predicates.map (fun p => ("builtins/" ++ p.identifier ++ ".rs", p.rust_file)))

/-- An argument of a Rust `format!` call: `FmtArg.disp` is consumed by a
`\x7b\x7d` placeholder (the `Display` trait), `FmtArg.debug` by a
`\x7b:?\x7d` placeholder (the `Debug` trait). -/
inductive FmtArg where
  | disp (s : String)
  | debug (s : String)

/-- The Rust `Debug` escaping of one character of a string (the cases
arising for printable ASCII and the common escapes). -/
def rustEscapeChar (c : Char) : List Char :=
  if c = '\"' then ['\\', '\"']
  else if c = '\\' then ['\\', '\\']
  else if c = '\n' then ['\\', 'n']
  else if c = '\t' then ['\\', 't']
  else if c = '\r' then ['\\', 'r']
  else [c]

/-- The Rust `Debug` rendering of a string value: the escaped characters
wrapped in double quotes — what `\x7b:?\x7d` prints for a `String`. -/
def rustDebugStr (s : String) : String :=
  "\"" ++ String.mk ((s.data.map rustEscapeChar).foldr (· ++ ·) []) ++ "\""

/-- Interpreter for a Rust `format!` string over its argument list:
placeholders consume arguments positionally, everything else is copied. -/
def rustFormatGo : List Char → List FmtArg → List Char
  | '\x7b' :: '\x7d' :: rest, FmtArg.disp s :: args => s.data ++ rustFormatGo rest args
  | '\x7b' :: ':' :: '?' :: '\x7d' :: rest, FmtArg.debug s :: args =>
      (rustDebugStr s).data ++ rustFormatGo rest args
  | c :: rest, args => c :: rustFormatGo rest args
  | [], _ => []

/-- Rust `format!` as a function from the format-string value and the
arguments to the rendered string. -/
def rustFormat (fmt : String) (args : List FmtArg) : String :=
  String.mk (rustFormatGo fmt.data args)

/-- The rendering performed at the consumer's runtime by the serializer
that `rust_impl_flatzinc` emits: `format!` applied to the emitted format
string, with `Self::NAME` (the predicate's DSL identifier, a `\x7b\x7d`
placeholder) followed by the per-argument serialization results
`self.<arg>.fzn()` (each a `String` under a `\x7b:?\x7d` placeholder),
the latter passed in as `argFzn`. -/
def fzn_render (p : Predicate) (argFzn : List String) : String :=
  rustFormat (fznFormatValue p.args.length)
    (FmtArg.disp p.identifier :: argFzn.map FmtArg.debug)

/-- Modelled from the spec: the serializer is said to render exactly
`"<NAME>(<arg1>, <arg2>, ...)\n"` — the literal DSL name, an open
parenthesis, the per-argument serializations joined by `", "`, a close
parenthesis, and a newline. -/
def fzn_render_spec (p : Predicate) (argFzn : List String) : String :=
  p.identifier ++ "(" ++ joinSep ", " argFzn ++ ")\n"

/-- The predicate parsed from `"predicate int_eq(int: a, int: b)"`. -/
def predIntEq : Predicate :=
  ⟨"int_eq", "IntEq", [⟨argTypeInt, "a"⟩, ⟨argTypeInt, "b"⟩]⟩

/-- The predicate parsed from `"predicate p(bool: x)"`: no argument of it
needs shared ownership. -/
def predBoolP : Predicate := ⟨"p", "P", [⟨argTypeBool, "x"⟩]⟩

/-- A predicate whose two arguments share one registry descriptor. -/
def predShare : Predicate :=
  ⟨"p2", "P2", [⟨argTypeVarInt, "x"⟩, ⟨argTypeVarInt, "y"⟩]⟩

theorem strData_append (a b : String) : (a ++ b).data = a.data ++ b.data := rfl

theorem strMk_data (s : String) : String.mk s.data = s := rfl

theorem exceptBind_ok_iff {α β : Type} (x : Except String α) (f : α → Except String β)
    (b : β) : (x >>= f) = .ok b ↔ ∃ a, x = .ok a ∧ f a = .ok b := by
  cases x <;> simp [Bind.bind, Except.bind]

/-- Claim C9: the generated-type name is `upper_camel` of the predicate
identifier (split on underscores, capitalize, concatenate), with the
three reference evaluations of the spec. -/
theorem c9_upper_camel_names :
  upper_camel "close_to" = "CloseTo" ∧ upper_camel "int_eq" = "IntEq" ∧
  upper_camel "x" = "X" ∧
  ∀ (s : String) (p : Predicate), Predicate.from_str s = .ok p →
    p.rust_name = upper_camel p.identifier := by
  refine ⟨rfl, rfl, rfl, ?_⟩
  intro s p h
  unfold Predicate.from_str at h
  cases hm : predicateMatch s with
  | none => rw [hm] at h; exact absurd h (by simp)
  | some pr =>
    obtain ⟨ident, raw⟩ := pr
    rw [hm] at h
    replace h : (((splitCh ',' raw.data).map String.mk).mapM Arg.from_str >>= fun args =>
        Predicate.make ident args) = Except.ok p := h
    rw [exceptBind_ok_iff] at h
    obtain ⟨args, _, hmk⟩ := h
    unfold Predicate.make at hmk
    unfold Identifier.check at hmk
    by_cases hid : isIdentifier ident
    · simp only [hid, if_true] at hmk
      replace hmk : Except.ok (⟨ident, upper_camel ident, args⟩ : Predicate) = Except.ok p := hmk
      cases hmk
      rfl
    · simp only [hid, Bool.false_eq_true, if_false] at hmk
      exact absurd hmk (by simp [Bind.bind, Except.bind])

theorem c9_upper_camel_names_witness :
  predIntEq.rust_name = upper_camel predIntEq.identifier :=
  c9_upper_camel_names.2.2.2 "predicate int_eq(int: a, int: b)" predIntEq rfl

/-- Claim C5: type resolution is an exact-string lookup over the closed
8-token registry: it succeeds exactly on the registered tokens, raises a
`ParsingError` on everything else, and in particular `"var bool"` vs
`"bool"` and `"array [int] of var bool"` vs `"array [int] of bool"`
resolve to distinct descriptors with distinct target types (no prefix
matching). -/
theorem c5_registry_exact_lookup :
  (∀ s : String, (ArgTypeFactory.from_str s).isOk = true ↔
      s ∈ ARG_TYPES.map ArgType.flatzinc_type) ∧
  (ARG_TYPES.map ArgType.flatzinc_type).Nodup ∧
  ARG_TYPES.length = 8 ∧
  (∀ s : String, s ∉ ARG_TYPES.map ArgType.flatzinc_type →
    ArgTypeFactory.from_str s = .error ("\x27" ++ s ++ "\x27 is not a valid arg type")) ∧
  ArgTypeFactory.from_str "var bool" = .ok argTypeVarBool ∧
  ArgTypeFactory.from_str "bool" = .ok argTypeBool ∧
  argTypeVarBool ≠ argTypeBool ∧ argTypeVarBool.rust_type ≠ argTypeBool.rust_type ∧
  ArgTypeFactory.from_str "array [int] of var bool" = .ok argTypeArrVarBool ∧
  ArgTypeFactory.from_str "array [int] of bool" = .ok argTypeArrBool ∧
  argTypeArrVarBool ≠ argTypeArrBool ∧
  argTypeArrVarBool.rust_type ≠ argTypeArrBool.rust_type := by
  refine ⟨?_, by decide, rfl, ?_, rfl, rfl, by decide, by decide, rfl, rfl,
    by decide, by decide⟩
  · intro s
    unfold ArgTypeFactory.from_str
    cases hf : ARG_TYPES.find? (fun t => t.flatzinc_type == s) with
    | none =>
      refine iff_of_false (by simp [Except.isOk, Except.toBool]) ?_
      intro hmem
      obtain ⟨t, ht, he⟩ := List.mem_map.mp hmem
      have := List.find?_eq_none.mp hf t ht
      simp [he] at this
    | some t =>
      refine iff_of_true rfl ?_
      have h1 := List.find?_some hf
      have h2 := List.mem_of_find?_eq_some hf
      simp only [beq_iff_eq] at h1
      exact List.mem_map.mpr ⟨t, h2, h1⟩
  · intro s hs
    unfold ArgTypeFactory.from_str
    have hnone : ARG_TYPES.find? (fun t => t.flatzinc_type == s) = none := by
      rw [List.find?_eq_none]
      intro t ht
      simp only [beq_iff_eq]
      intro he
      exact hs (List.mem_map.mpr ⟨t, ht, he⟩)
    rw [hnone]

theorem c5_registry_exact_lookup_witness :
  ArgTypeFactory.from_str "boolean" =
    .error "\x27boolean\x27 is not a valid arg type" :=
  c5_registry_exact_lookup.2.2.2.1 "boolean" (by decide)

/-- Claim C7: Identifier validation returns the string itself exactly when
it fully matches `[A-Za-z][A-Za-z0-9_]*`, raises a `ParsingError` whose
message contains the offending token otherwise, and consequently the line
`predicate bad-name(int: x)` parses to a `ParsingError`, not a
Predicate. -/
theorem c7_identifier_validation :
  (∀ s : String, Identifier.check s = .ok s ↔
      ∃ c cs, s.data = c :: cs ∧ c.isAlpha = true ∧
        ∀ d ∈ cs, (d.isAlphanum || d = '_') = true) ∧
  (∀ s : String, isIdentifier s = false →
      Identifier.check s = .error ("\x27" ++ s ++ "\x27 is not a valid identifier") ∧
      List.IsInfix s.data ("\x27" ++ s ++ "\x27 is not a valid identifier").data) ∧
  Predicate.from_str "predicate bad-name(int: x)" =
    .error "\x27bad-name\x27 is not a valid identifier" := by
  refine ⟨?_, ?_, rfl⟩
  · intro s
    have hiff : isIdentifier s = true ↔
        ∃ c cs, s.data = c :: cs ∧ c.isAlpha = true ∧
          ∀ d ∈ cs, (d.isAlphanum || d = '_') = true := by
      obtain ⟨l⟩ := s
      cases l with
      | nil => simp [isIdentifier]
      | cons c cs =>
        simp only [isIdentifier, List.all_eq_true, Bool.and_eq_true, Bool.or_eq_true,
          decide_eq_true_eq]
        constructor
        · rintro ⟨h1, h2⟩
          exact ⟨c, cs, rfl, h1, by simpa using h2⟩
        · rintro ⟨c', cs', hcc, h1, h2⟩
          cases hcc
          exact ⟨h1, by simpa using h2⟩
    constructor
    · intro h
      by_cases hid : isIdentifier s
      · exact hiff.mp hid
      · unfold Identifier.check at h
        simp only [hid, Bool.false_eq_true, if_false] at h
        exact absurd h (by simp)
    · intro h
      unfold Identifier.check
      simp [hiff.mpr h]
  · intro s hs
    refine ⟨?_, ?_⟩
    · unfold Identifier.check
      simp [hs]
    · exact ⟨['\x27'], "\x27 is not a valid identifier".data, by simp [strData_append]⟩

theorem c7_identifier_validation_witness :
  Identifier.check "bad-name" =
    .error "\x27bad-name\x27 is not a valid identifier" ∧
  List.IsInfix "bad-name".data
    "\x27bad-name\x27 is not a valid identifier".data :=
  c7_identifier_validation.2.1 "bad-name" (by decide)

theorem splitCh_sepfree (sep : Char) (l : List Char) (h : ∀ c ∈ l, c ≠ sep) :
    splitCh sep l = [l] := by
  induction l with
  | nil => rfl
  | cons c cs ih =>
    have hcs : splitCh sep cs = [cs] := ih (fun x hx => h x (List.mem_cons_of_mem _ hx))
    unfold splitCh
    rw [hcs]
    simp [h c (List.mem_cons_self c cs)]

theorem splitCh_cons_head (sep : Char) (pre l : List Char) (hd : List Char)
    (tl : List (List Char)) (hsp : splitCh sep l = hd :: tl)
    (hpre : ∀ c ∈ pre, c ≠ sep) :
    splitCh sep (pre ++ l) = (pre ++ hd) :: tl := by
  induction pre with
  | nil => simpa using hsp
  | cons c pre' ih =>
    have hih := ih (fun x hx => hpre x (List.mem_cons_of_mem _ hx))
    rw [List.cons_append]
    unfold splitCh
    rw [hih]
    simp [hpre c (List.mem_cons_self c pre')]

/-- Claim C6: for a successfully parsed Arg, the stored name is the
(trimmed, identifier-validated) name token truncated to its first
character when that token has length exactly 2, and the token unchanged
for every other length. -/
theorem c6_two_char_arg_name_truncation :
  ∀ (ty nm : String) (a : Arg), ':' ∉ ty.data → ':' ∉ nm.data →
    Arg.from_str (ty ++ ":" ++ nm) = .ok a →
    isIdentifier (pyTrim nm) = true ∧
    a.identifier = (if (pyTrim nm).length = 2
      then String.mk ((pyTrim nm).data.take 1) else pyTrim nm) := by
  intro ty nm a hty hnm h
  have hsplit : splitCh ':' (ty ++ ":" ++ nm).data = [ty.data, nm.data] := by
    have hdata : (ty ++ ":" ++ nm).data = ty.data ++ ':' :: nm.data := by
      simp [strData_append]
    rw [hdata]
    have h1 : splitCh ':' (':' :: nm.data) = [] :: [nm.data] := by
      unfold splitCh
      rw [splitCh_sepfree ':' nm.data (fun c hc he => hnm (he ▸ hc))]
      simp
    simpa using splitCh_cons_head ':' ty.data (':' :: nm.data) [] [nm.data] h1
      (fun c hc he => hty (he ▸ hc))
  unfold Arg.from_str at h
  rw [hsplit] at h
  replace h : (ArgTypeFactory.from_str (pyTrim (String.mk ty.data)) >>= fun t =>
      Identifier.check (pyTrim (String.mk nm.data)) >>= fun i =>
        Except.ok (Arg.make t i)) = .ok a := h
  simp only [strMk_data] at h
  rw [exceptBind_ok_iff] at h
  obtain ⟨t, _, h⟩ := h
  rw [exceptBind_ok_iff] at h
  obtain ⟨i, hi, h2⟩ := h
  by_cases hid : isIdentifier (pyTrim nm)
  · unfold Identifier.check at hi
    simp only [hid, if_true] at hi
    cases hi
    cases h2
    exact ⟨hid, rfl⟩
  · unfold Identifier.check at hi
    simp only [hid, Bool.false_eq_true, if_false] at hi
    exact absurd hi (by simp)

theorem c6_two_char_arg_name_truncation_witness :
  isIdentifier (pyTrim " ab") = true ∧
  (Arg.mk argTypeInt "a").identifier = (if (pyTrim " ab").length = 2
    then String.mk ((pyTrim " ab").data.take 1) else pyTrim " ab") :=
  c6_two_char_arg_name_truncation "int" " ab" (Arg.mk argTypeInt "a")
    (by decide) (by decide) rfl

/-- Claim C2 counterexample: `predicate p(bool: x)` parses to a Predicate
none of whose arguments has `need_rc` set, yet the emitted import block
still contains the shared-reference utility import line `use std::rc::Rc;`
— refuting the claimed "if and only if" (the import is not absent when no
Arg needs sharing). -/
theorem c2_counterexample :
  Predicate.from_str "predicate p(bool: x)" = .ok predBoolP ∧
  predBoolP.args.all (fun a => !a.type.need_rc) = true ∧
  predBoolP.rust_imports = joinStr predBoolP.rust_import_pieces ∧
  "use std::rc::Rc;\n" ∈ predBoolP.rust_import_pieces := by
  refine ⟨rfl, rfl, rfl, ?_⟩
  simp [Predicate.rust_import_pieces]

/-- Claim C2 amended: the shared-reference utility import is emitted
unconditionally — the import block of every Predicate begins with
`use std::rc::Rc;\n`, whether or not any Arg needs sharing (the
`need_rc` flag is computed but never consulted by the emitter). -/
theorem c2_amended_rc_import_unconditional (p : Predicate) :
  ∃ rest, p.rust_imports = "use std::rc::Rc;\n" ++ rest :=
  ⟨_, rfl⟩

theorem splitCh_ne_nil (sep : Char) (l : List Char) : splitCh sep l ≠ [] := by
  cases l with
  | nil => simp [splitCh]
  | cons c cs =>
    show (match splitCh sep cs with
      | h :: t => if c = sep then [] :: h :: t else (c :: h) :: t
      | [] => [[]]) ≠ []
    cases hc : splitCh sep cs with
    | nil => simp
    | cons h t =>
      by_cases hs : c = sep <;> simp [hs]

theorem splitCh_cons_self (sep : Char) (cs : List Char) :
    splitCh sep (sep :: cs) = [] :: splitCh sep cs := by
  show (match splitCh sep cs with
    | h :: t => if sep = sep then [] :: h :: t else (sep :: h) :: t
    | [] => [[]]) = [] :: splitCh sep cs
  cases hc : splitCh sep cs with
  | nil => simp
  | cons h t => simp

theorem splitlines_single (s : String) (hne : s.data ≠ []) (hn : '\n' ∉ s.data) :
    splitlines s = [s] := by
  unfold splitlines
  rw [splitCh_sepfree '\n' s.data (fun c hc he => hn (he ▸ hc))]
  have hse : ¬ (String.mk s.data = "") := by
    intro he
    exact hne (congrArg String.data he)
  simp [strMk_data, hse]

theorem splitlines_cons (l s : String) (hn : '\n' ∉ l.data) :
    splitlines (l ++ "\n" ++ s) = l :: splitlines s := by
  have hdata : (l ++ "\n" ++ s).data = l.data ++ '\n' :: s.data := by
    simp [strData_append]
  have hsp : splitCh '\n' (l ++ "\n" ++ s).data = l.data :: splitCh '\n' s.data := by
    rw [hdata]
    have h1 : splitCh '\n' ('\n' :: s.data) = [] :: splitCh '\n' s.data :=
      splitCh_cons_self '\n' s.data
    simpa using splitCh_cons_head '\n' l.data ('\n' :: s.data) [] (splitCh '\n' s.data)
      h1 (fun c hc he => hn (he ▸ hc))
  unfold splitlines
  rw [hsp]
  cases hq : splitCh '\n' s.data with
  | nil => exact absurd hq (splitCh_ne_nil '\n' s.data)
  | cons q qs =>
    simp only [List.map_cons, strMk_data]
    rw [List.getLast?_cons_cons]
    by_cases hl : (List.map String.mk (q :: qs)).getLast? = some ""
    · simp only [List.map_cons] at hl
      simp [hl]
    · simp only [List.map_cons] at hl
      simp [hl]

theorem isSpace_not_special (c : Char) (h : isSpace c = true) : c ≠ 'p' ∧ c ≠ '%' := by
  simp only [isSpace, Bool.or_eq_true, decide_eq_true_eq] at h
  rcases h with (((((rfl | rfl) | rfl) | rfl) | rfl) | rfl) <;> exact ⟨by decide, by decide⟩

/-- Claim C10: a line is skipped as a comment when its first character is
`%` (first conjunct), and a line of whitespace followed by `%` is not
skipped: the whole parse aborts with the `ParsingError` of that line
(second conjunct). -/
theorem c10_comment_iff_first_char_percent :
  (∀ (l s : String), isComment l = true → '\n' ∉ l.data →
     Predicate.from_file (l ++ "\n" ++ s) = Predicate.from_file s) ∧
  (∀ (w rest : String), w ≠ "" → (∀ c ∈ w.data, isSpace c = true) →
     '\n' ∉ w.data → '\n' ∉ rest.data →
     Predicate.from_file (w ++ "%" ++ rest) =
       .error ("\x27" ++ (w ++ "%" ++ rest) ++ "\x27 is not a valid predicate")) := by
  constructor
  · intro l s hc hn
    unfold Predicate.from_file
    rw [splitlines_cons l s hn]
    show (if isComment l = true then fromFileLines (splitlines s)
      else do
        let p ← Predicate.from_str l
        let ps ← fromFileLines (splitlines s)
        Except.ok (p :: ps)) = fromFileLines (splitlines s)
    rw [hc]
    simp
  · intro w rest hw hws hnw hnr
    obtain ⟨wl⟩ := w
    cases wl with
    | nil => exact absurd rfl hw
    | cons c cs =>
      have hcs : isSpace c = true := hws c (List.mem_cons_self c cs)
      obtain ⟨hcp, hcpc⟩ := isSpace_not_special c hcs
      have hdata : (String.mk (c :: cs) ++ "%" ++ rest).data =
          c :: (cs ++ '%' :: rest.data) := by
        simp [strData_append]
      have hne : (String.mk (c :: cs) ++ "%" ++ rest).data ≠ [] := by
        rw [hdata]; simp
      have hnn : '\n' ∉ (String.mk (c :: cs) ++ "%" ++ rest).data := by
        rw [hdata]
        intro hmem
        rcases List.mem_cons.mp hmem with he | hmem2
        · exact hnw (by rw [he]; exact List.mem_cons_self _ _)
        · rcases List.mem_append.mp hmem2 with h3 | h4
          · exact hnw (List.mem_cons_of_mem _ h3)
          · rcases List.mem_cons.mp h4 with h5 | h6
            · exact absurd h5 (by decide)
            · exact hnr h6
      unfold Predicate.from_file
      rw [splitlines_single _ hne hnn]
      show (if isComment (String.mk (c :: cs) ++ "%" ++ rest) = true
        then fromFileLines []
        else do
          let p ← Predicate.from_str (String.mk (c :: cs) ++ "%" ++ rest)
          let ps ← fromFileLines []
          Except.ok (p :: ps)) = _
      have hcomment : isComment (String.mk (c :: cs) ++ "%" ++ rest) = false := by
        unfold isComment
        rw [hdata]
        simp [hcpc]
      rw [hcomment]
      simp only [Bool.false_eq_true, if_false]
      have hpm : predicateMatch (String.mk (c :: cs) ++ "%" ++ rest) = none := by
        unfold predicateMatch
        have hpre : isPrefixCh "predicate ".data
            (String.mk (c :: cs) ++ "%" ++ rest).data = false := by
          rw [hdata]
          rw [show "predicate ".data = 'p' :: "redicate ".data from rfl]
          unfold isPrefixCh
          simp [Ne.symm hcp]
        rw [hpre]
        simp
      unfold Predicate.from_str
      rw [hpm]
      rfl

theorem c10_comment_iff_first_char_percent_witness :
  Predicate.from_file ("% note" ++ "\n" ++ "predicate p(bool: x)") =
    Predicate.from_file "predicate p(bool: x)" ∧
  Predicate.from_file (" " ++ "%" ++ "c") =
    .error ("\x27" ++ (" " ++ "%" ++ "c") ++ "\x27 is not a valid predicate") :=
  ⟨c10_comment_iff_first_char_percent.1 "% note" "predicate p(bool: x)"
      (by decide) (by decide),
   c10_comment_iff_first_char_percent.2 " " "c" (by decide) (by decide)
      (by decide) (by decide)⟩

theorem exceptBind_ok {α β : Type} (a : α) (f : α → Except String β) :
    ((Except.ok a : Except String α) >>= f) = f a := rfl

theorem exceptBind_error {α β : Type} (e : String) (f : α → Except String β) :
    ((Except.error e : Except String α) >>= f) = .error e := rfl

theorem fromFileLines_cons_c (x : String) (xs : List String)
    (hcx : isComment x = true) : fromFileLines (x :: xs) = fromFileLines xs := by
  show (if isComment x = true then fromFileLines xs
    else do
      let p ← Predicate.from_str x
      let ps ← fromFileLines xs
      Except.ok (p :: ps)) = _
  rw [hcx]
  simp

theorem fromFileLines_cons_nc (x : String) (xs : List String)
    (hcx : isComment x = false) :
    fromFileLines (x :: xs) =
      (Predicate.from_str x >>= fun p =>
        fromFileLines xs >>= fun ps => Except.ok (p :: ps)) := by
  show (if isComment x = true then fromFileLines xs
    else do
      let p ← Predicate.from_str x
      let ps ← fromFileLines xs
      Except.ok (p :: ps)) = _
  rw [hcx]
  simp only [Bool.false_eq_true, if_false]

theorem fromFileLines_first_bad (ls : List String) (l e : String)
    (hf : ls.find? (fun x => !isComment x && !(Predicate.from_str x).isOk) = some l)
    (he : Predicate.from_str l = .error e) :
    fromFileLines ls = .error e := by
  induction ls with
  | nil => simp at hf
  | cons x xs ih =>
    rw [List.find?_cons] at hf
    cases hpx : (!isComment x && !(Predicate.from_str x).isOk) with
    | true =>
      rw [hpx] at hf
      replace hf : some x = some l := hf
      injection hf with hxl
      subst hxl
      have hcx : isComment x = false := by
        cases hcc : isComment x
        · rfl
        · rw [hcc] at hpx; simp at hpx
      simp only [fromFileLines_cons_nc x xs hcx, he, exceptBind_error]
    | false =>
      rw [hpx] at hf
      replace hf : xs.find? (fun x => !isComment x && !(Predicate.from_str x).isOk)
          = some l := hf
      have hih := ih hf
      by_cases hcx : isComment x = true
      · rw [fromFileLines_cons_c x xs hcx]
        exact hih
      · have hcx' : isComment x = false := by simpa using hcx
        have hok : (Predicate.from_str x).isOk = true := by
          rw [hcx'] at hpx
          simpa using hpx
        cases hx : Predicate.from_str x with
        | error e2 =>
          rw [hx] at hok
          exact absurd hok (by simp [Except.isOk, Except.toBool])
        | ok p =>
          simp only [fromFileLines_cons_nc x xs hcx', hx, exceptBind_ok, hih,
            exceptBind_error]

/-- Claim C4: when some non-comment line of the input fails to parse,
`from_file` aborts with the `ParsingError` originating from the first such
line, and the compilation produces no `GeneratedUnit` at all (the whole
pipeline returns that error). -/
theorem c4_first_bad_line_aborts :
  ∀ (s l e : String),
    (splitlines s).find? (fun x => !isComment x && !(Predicate.from_str x).isOk)
      = some l →
    Predicate.from_str l = .error e →
    Predicate.from_file s = .error e ∧ compile s = .error e := by
  intro s l e hf he
  have h1 : Predicate.from_file s = .error e := fromFileLines_first_bad _ l e hf he
  refine ⟨h1, ?_⟩
  unfold compile
  rw [h1]
  rfl

theorem c4_first_bad_line_aborts_witness :
  Predicate.from_file "predicate p(bool: x)\nnonsense" =
    .error "\x27nonsense\x27 is not a valid predicate" ∧
  compile "predicate p(bool: x)\nnonsense" =
    .error "\x27nonsense\x27 is not a valid predicate" :=
  c4_first_bad_line_aborts "predicate p(bool: x)\nnonsense" "nonsense"
    "\x27nonsense\x27 is not a valid predicate" rfl rfl

theorem fromFileLines_all_ok (ls : List String)
    (h : ∀ l ∈ ls, isComment l = false → (Predicate.from_str l).isOk = true) :
    ∃ ps, fromFileLines ls = .ok ps ∧
      ps.length = (ls.filter (fun l => !isComment l)).length := by
  induction ls with
  | nil => exact ⟨[], rfl, rfl⟩
  | cons x xs ih =>
    obtain ⟨ps, hps, hlen⟩ := ih (fun l hl => h l (List.mem_cons_of_mem _ hl))
    by_cases hcx : isComment x = true
    · refine ⟨ps, ?_, ?_⟩
      · rw [fromFileLines_cons_c x xs hcx]
        exact hps
      · rw [List.filter_cons]
        simp [hcx, hlen]
    · have hcx' : isComment x = false := by simpa using hcx
      have hok := h x (List.mem_cons_self x xs) hcx'
      cases hx : Predicate.from_str x with
      | error e =>
        rw [hx] at hok
        exact absurd hok (by simp [Except.isOk, Except.toBool])
      | ok p =>
        refine ⟨p :: ps, ?_, ?_⟩
        · simp only [fromFileLines_cons_nc x xs hcx', hx, exceptBind_ok, hps]
        · rw [List.filter_cons]
          simp [hcx', hlen]

/-- Claim C3 amended: for an input in which every non-comment line parses
as a predicate (which rules out blank lines, since a blank line is not a
valid predicate), the pipeline produces exactly N per-predicate units plus
3 aggregate units, N being the number of non-comment lines; `%`-comment
lines do not affect the count. -/
theorem c3_amended_unit_count :
  ∀ s : String,
    (∀ l ∈ splitlines s, isComment l = false → (Predicate.from_str l).isOk = true) →
    (compile s).isOk = true ∧
    Except.map List.length (compile s) =
      .ok (3 + ((splitlines s).filter (fun l => !isComment l)).length) := by
  intro s h
  obtain ⟨ps, hps, hlen⟩ := fromFileLines_all_ok (splitlines s) h
  have hc : compile s = .ok
      ([("builtins/mod.rs", builtinsRustFile ps),
        ("constraint.rs", constraintRustFile ps),
        ("mod.rs", constraintModFILE)]
       ++ ps.map (fun p => ("builtins/" ++ p.identifier ++ ".rs", p.rust_file))) := by
    unfold compile Predicate.from_file
    rw [hps]
    rfl
  rw [hc]
  refine ⟨rfl, ?_⟩
  simp only [Except.map, List.length_append, List.length_map, List.length_cons,
    List.length_nil, hlen]

/-- Claim C3 counterexample: an input with two well-formed non-comment,
non-blank lines separated by a blank line has N = 2, yet the pipeline
produces no units at all — it aborts on the blank line — instead of the
claimed N + 3 = 5; so the unit count is not unaffected by blank lines. -/
theorem c3_counterexample :
  ((splitlines "predicate p(bool: x)\n\npredicate q(bool: y)").filter
      (fun l => !isComment l && !(l == ""))).length = 2 ∧
  (Predicate.from_str "predicate p(bool: x)").isOk = true ∧
  (Predicate.from_str "predicate q(bool: y)").isOk = true ∧
  compile "predicate p(bool: x)\n\npredicate q(bool: y)" =
    .error "\x27\x27 is not a valid predicate" :=
  ⟨rfl, rfl, rfl, rfl⟩

theorem c3_amended_unit_count_witness :
  (compile "% c\npredicate p(bool: x)").isOk = true ∧
  Except.map List.length (compile "% c\npredicate p(bool: x)") =
    .ok (3 + ((splitlines "% c\npredicate p(bool: x)").filter
      (fun l => !isComment l)).length) :=
  c3_amended_unit_count "% c\npredicate p(bool: x)" (by decide)

theorem count_sortedDedup (l : List String) (a : String) :
    (sortedDedup l).count a = if a ∈ l then 1 else 0 := by
  unfold sortedDedup sortStrings
  rw [(List.perm_insertionSort _ _).count_eq]
  exact List.count_dedup l a

theorem mem_sortedDedup (l : List String) (a : String) :
    a ∈ sortedDedup l ↔ a ∈ l := by
  unfold sortedDedup sortStrings
  rw [(List.perm_insertionSort _ _).mem_iff]
  exact List.mem_dedup

theorem sorted_sortedDedup (l : List String) :
    List.Sorted (fun a b : String => a ≤ b) (sortedDedup l) :=
  List.sorted_insertionSort _ _

theorem str_data_inj (a b : String) (h : a.data = b.data) : a = b := by
  cases a
  cases b
  exact congrArg String.mk h

theorem str_append_right_cancel (a b c : String) (h : a ++ c = b ++ c) : a = b := by
  have hd : a.data ++ c.data = b.data ++ c.data := by
    rw [← strData_append, ← strData_append, h]
  exact str_data_inj a b (List.append_cancel_right hd)

theorem str_append_left_cancel (a b c : String) (h : a ++ b = a ++ c) : b = c := by
  have hd : a.data ++ b.data = a.data ++ c.data := by
    rw [← strData_append, ← strData_append, h]
  exact str_data_inj b c (List.append_cancel_left hd)

theorem fn_line_injective :
    Function.Injective (fun f => "use crate::fzn::parser::" ++ f ++ ";\n") := by
  intro x y h
  simp only at h
  exact str_append_left_cancel _ _ _ (str_append_right_cancel _ _ _ h)

theorem registry_import_mem (t : ArgType) (ht : t ∈ ARG_TYPES) :
    t.rust_import ∈ (["use crate::fzn::types::Int;\n", "use crate::fzn::var::VarInt;\n",
      "use crate::fzn::var::VarBool;\n", ""] : List String) := by
  fin_cases ht <;> decide

theorem registry_fn_mem (t : ArgType) (ht : t ∈ ARG_TYPES) :
    t.rust_expr_fn ∈ (["int_from_expr", "var_int_from_expr", "vec_int_from_expr",
      "vec_var_int_from_expr", "bool_from_expr", "var_bool_from_expr",
      "vec_bool_from_expr", "vec_var_bool_from_expr"] : List String) := by
  fin_cases ht <;> decide

theorem fn_line_ne_import (i f : String)
    (hi : i ∈ (["use crate::fzn::types::Int;\n", "use crate::fzn::var::VarInt;\n",
      "use crate::fzn::var::VarBool;\n", ""] : List String))
    (hf : f ∈ (["int_from_expr", "var_int_from_expr", "vec_int_from_expr",
      "vec_var_int_from_expr", "bool_from_expr", "var_bool_from_expr",
      "vec_bool_from_expr", "vec_var_bool_from_expr"] : List String)) :
    "use crate::fzn::parser::" ++ f ++ ";\n" ≠ i := by
  fin_cases hi <;> fin_cases hf <;> decide

theorem import_ne_core (i : String)
    (hi : i ∈ (["use crate::fzn::types::Int;\n", "use crate::fzn::var::VarInt;\n",
      "use crate::fzn::var::VarBool;\n"] : List String)) :
    i ∉ (["use std::rc::Rc;\n", "\n", "use flatzinc::ConstraintItem;\n", "\n"] :
      List String) ∧
    i ∉ (["use crate::fzn::constraint::Constraint;\n", "use crate::fzn::model::Model;\n",
      "use crate::fzn::Fzn;\n"] : List String) := by
  fin_cases hi <;> exact ⟨by decide, by decide⟩

theorem fn_line_ne_core (f : String)
    (hf : f ∈ (["int_from_expr", "var_int_from_expr", "vec_int_from_expr",
      "vec_var_int_from_expr", "bool_from_expr", "var_bool_from_expr",
      "vec_bool_from_expr", "vec_var_bool_from_expr"] : List String)) :
    ("use crate::fzn::parser::" ++ f ++ ";\n") ∉
      (["use std::rc::Rc;\n", "\n", "use flatzinc::ConstraintItem;\n", "\n"] :
        List String) ∧
    ("use crate::fzn::parser::" ++ f ++ ";\n") ∉
      (["use crate::fzn::constraint::Constraint;\n", "use crate::fzn::model::Model;\n",
        "use crate::fzn::Fzn;\n"] : List String) := by
  fin_cases hf <;> exact ⟨by decide, by decide⟩

/-- Claim C8: in the emitted import block of a Predicate whose argument
types all come from the registry, each referenced type import and each
referenced conversion-function import occurs on exactly one line, even
when two Args share one TypeDescriptor — the variable parts of the block
are deduplicated and emitted in ascending sorted order. -/
theorem c8_import_dedup_sorted :
  ∀ (p : Predicate), (∀ a ∈ p.args, a.type ∈ ARG_TYPES) →
    p.rust_imports = joinStr p.rust_import_pieces ∧
    List.Sorted (fun a b : String => a ≤ b) p.type_import_lines ∧
    List.Sorted (fun a b : String => a ≤ b)
      (sortedDedup (p.args.map (fun a => a.type.rust_expr_fn))) ∧
    ∀ a ∈ p.args,
      (a.type.rust_import ≠ "" →
        p.rust_import_pieces.count a.type.rust_import = 1) ∧
      p.rust_import_pieces.count
        ("use crate::fzn::parser::" ++ a.type.rust_expr_fn ++ ";\n") = 1 := by
  intro p hreg
  refine ⟨rfl, sorted_sortedDedup _, sorted_sortedDedup _, ?_⟩
  intro a ha
  have hat := hreg a ha
  have himp4 := registry_import_mem a.type hat
  have hfn8 := registry_fn_mem a.type hat
  constructor
  · intro hi
    have himp3 : a.type.rust_import ∈
        (["use crate::fzn::types::Int;\n", "use crate::fzn::var::VarInt;\n",
          "use crate::fzn::var::VarBool;\n"] : List String) := by
      simp only [List.mem_cons, List.not_mem_nil, or_false] at himp4
      rcases himp4 with h | h | h | h
      · simp [h]
      · simp [h]
      · simp [h]
      · exact absurd h hi
    unfold Predicate.rust_import_pieces
    rw [List.count_append, List.count_append, List.count_append]
    have hA : (["use std::rc::Rc;\n", "\n", "use flatzinc::ConstraintItem;\n", "\n"] :
        List String).count a.type.rust_import = 0 :=
      List.count_eq_zero.mpr (import_ne_core _ himp3).1
    have hB : (["use crate::fzn::constraint::Constraint;\n",
        "use crate::fzn::model::Model;\n", "use crate::fzn::Fzn;\n"] :
        List String).count a.type.rust_import = 0 :=
      List.count_eq_zero.mpr (import_ne_core _ himp3).2
    have hFn : (p.expr_fn_lines).count a.type.rust_import = 0 := by
      refine List.count_eq_zero.mpr ?_
      intro hmem
      unfold Predicate.expr_fn_lines at hmem
      obtain ⟨f, hfmem, hfe⟩ := List.mem_map.mp hmem
      rw [mem_sortedDedup] at hfmem
      obtain ⟨b, hb, hbf⟩ := List.mem_map.mp hfmem
      have hbreg := registry_fn_mem b.type (hreg b hb)
      rw [← hbf] at hfe
      exact fn_line_ne_import _ _ himp4 hbreg hfe
    have hT : (p.type_import_lines).count a.type.rust_import = 1 := by
      unfold Predicate.type_import_lines
      rw [count_sortedDedup]
      rw [if_pos (List.mem_map_of_mem _ ha)]
    rw [hA, hB, hFn, hT]
  · unfold Predicate.rust_import_pieces
    rw [List.count_append, List.count_append, List.count_append]
    have hA := List.count_eq_zero.mpr (fn_line_ne_core _ hfn8).1
    have hB := List.count_eq_zero.mpr (fn_line_ne_core _ hfn8).2
    have hT : (p.type_import_lines).count
        ("use crate::fzn::parser::" ++ a.type.rust_expr_fn ++ ";\n") = 0 := by
      refine List.count_eq_zero.mpr ?_
      intro hmem
      unfold Predicate.type_import_lines at hmem
      rw [mem_sortedDedup] at hmem
      obtain ⟨b, hb, hbe⟩ := List.mem_map.mp hmem
      have hbreg := registry_import_mem b.type (hreg b hb)
      rw [hbe] at hbreg
      exact fn_line_ne_import _ _ hbreg hfn8 rfl
    have hFn : (p.expr_fn_lines).count
        ("use crate::fzn::parser::" ++ a.type.rust_expr_fn ++ ";\n") = 1 := by
      unfold Predicate.expr_fn_lines
      rw [List.count_map_of_injective _ _ fn_line_injective]
      rw [count_sortedDedup]
      rw [if_pos (List.mem_map_of_mem _ ha)]
    rw [hA, hB, hFn, hT]

theorem c8_import_dedup_sorted_witness :
  predShare.rust_import_pieces.count "use crate::fzn::var::VarInt;\n" = 1 ∧
  predShare.rust_import_pieces.count
    ("use crate::fzn::parser::" ++ "var_int_from_expr" ++ ";\n") = 1 :=
  ⟨((c8_import_dedup_sorted predShare (by decide)).2.2.2
      (Arg.mk argTypeVarInt "x") (by decide)).1 (by decide),
   ((c8_import_dedup_sorted predShare (by decide)).2.2.2
      (Arg.mk argTypeVarInt "x") (by decide)).2⟩

theorem go_disp (rest : List Char) (s : String) (args : List FmtArg) :
    rustFormatGo ('\x7b' :: '\x7d' :: rest) (FmtArg.disp s :: args) =
      s.data ++ rustFormatGo rest args := rfl

theorem go_debug (rest : List Char) (s : String) (args : List FmtArg) :
    rustFormatGo ('\x7b' :: ':' :: '?' :: '\x7d' :: rest) (FmtArg.debug s :: args) =
      (rustDebugStr s).data ++ rustFormatGo rest args := rfl

theorem go_lparen (rest : List Char) (args : List FmtArg) :
    rustFormatGo ('(' :: rest) args = '(' :: rustFormatGo rest args := rfl

theorem go_rparen (rest : List Char) (args : List FmtArg) :
    rustFormatGo (')' :: rest) args = ')' :: rustFormatGo rest args := rfl

theorem go_comma (rest : List Char) (args : List FmtArg) :
    rustFormatGo (',' :: rest) args = ',' :: rustFormatGo rest args := rfl

theorem go_space (rest : List Char) (args : List FmtArg) :
    rustFormatGo (' ' :: rest) args = ' ' :: rustFormatGo rest args := rfl

theorem go_semi (rest : List Char) (args : List FmtArg) :
    rustFormatGo (';' :: rest) args = ';' :: rustFormatGo rest args := rfl

theorem go_newline (rest : List Char) (args : List FmtArg) :
    rustFormatGo ('\n' :: rest) args = '\n' :: rustFormatGo rest args := rfl

theorem go_nil (args : List FmtArg) : rustFormatGo [] args = [] := rfl



theorem render_args (tail : List Char) :
    ∀ argFzn : List String,
      rustFormatGo ((joinSep ", " (List.replicate argFzn.length "\x7b:?\x7d")).data
          ++ tail) (argFzn.map FmtArg.debug) =
        (joinSep ", " (argFzn.map rustDebugStr)).data ++ rustFormatGo tail [] := by
  intro argFzn
  induction argFzn with
  | nil => simp [joinSep, go_nil]
  | cons a as ih =>
    cases as with
    | nil =>
      show rustFormatGo ((joinSep ", " [("\x7b:?\x7d" : String)]).data ++ tail)
          [FmtArg.debug a] = (joinSep ", " [rustDebugStr a]).data ++ rustFormatGo tail []
      rw [show joinSep ", " [("\x7b:?\x7d" : String)] = "\x7b:?\x7d" from rfl,
        show joinSep ", " [rustDebugStr a] = rustDebugStr a from rfl]
      rw [show ("\x7b:?\x7d" : String).data = ['\x7b', ':', '?', '\x7d'] from rfl]
      rw [show (['\x7b', ':', '?', '\x7d'] ++ tail : List Char)
        = '\x7b' :: ':' :: '?' :: '\x7d' :: tail from rfl]
      rw [go_debug]
    | cons b bs =>
      show rustFormatGo
          ((joinSep ", " (("\x7b:?\x7d" : String) ::
            List.replicate (b :: bs).length "\x7b:?\x7d")).data ++ tail)
          (FmtArg.debug a :: (b :: bs).map FmtArg.debug) = _
      rw [show joinSep ", " (("\x7b:?\x7d" : String) ::
          List.replicate (b :: bs).length "\x7b:?\x7d") =
        "\x7b:?\x7d" ++ ", " ++
          joinSep ", " (List.replicate (b :: bs).length "\x7b:?\x7d") from ?_]
      · rw [show joinSep ", " ((a :: b :: bs).map rustDebugStr) =
          rustDebugStr a ++ ", " ++ joinSep ", " ((b :: bs).map rustDebugStr) from rfl]
        simp only [strData_append]
        simp only [List.append_assoc, List.cons_append, List.nil_append]
        rw [go_debug]
        rw [go_comma, go_space]
        rw [ih]
      · have hrep : List.replicate (b :: bs).length ("\x7b:?\x7d" : String) =
          "\x7b:?\x7d" :: List.replicate bs.length "\x7b:?\x7d" := rfl
        rw [hrep]
        rfl

theorem fznFormatValue_data (n : Nat) :
    (fznFormatValue n).data =
      '\x7b' :: '\x7d' :: '(' ::
        ((joinSep ", " (List.replicate n "\x7b:?\x7d")).data ++ [')', ';', '\n']) := by
  unfold fznFormatValue
  simp only [strData_append]
  rfl

/-- Claim C1 amended: the serializer emitted by `rust_impl_flatzinc`
renders `<NAME>(<dbg1>, ..., <dbgn>);\n` — the DSL name, an open
parenthesis, the Rust `Debug` renderings (quoted, escaped) of the
per-argument serialization results joined by `", "`, a close parenthesis,
a semicolon and a newline; the format literal interpreted here is the one
embedded verbatim in the emitted method text. -/
theorem c1_amended_serializer_render :
  ∀ (p : Predicate) (argFzn : List String), argFzn.length = p.args.length →
    fzn_render p argFzn =
      p.identifier ++ "(" ++ joinSep ", " (argFzn.map rustDebugStr) ++ ");\n" ∧
    List.IsInfix (fznFormatLiteral p.args.length).data
      (p.rust_impl_flatzinc).data := by
  intro p argFzn hlen
  constructor
  · unfold fzn_render rustFormat
    refine str_data_inj _ _ ?_
    rw [show (String.mk (rustFormatGo (fznFormatValue p.args.length).data
        (FmtArg.disp p.identifier :: List.map FmtArg.debug argFzn))).data =
      rustFormatGo (fznFormatValue p.args.length).data
        (FmtArg.disp p.identifier :: List.map FmtArg.debug argFzn) from rfl]
    rw [fznFormatValue_data, ← hlen]
    rw [go_disp]
    rw [go_lparen]
    rw [render_args]
    rw [go_rparen, go_semi, go_newline, go_nil]
    simp [strData_append]
  · refine ⟨("impl Fzn for " ++ p.rust_name ++ " \x7b\n" ++ TAB
        ++ "fn fzn(&self) -> String \x7b\n" ++ TAB ++ TAB ++ "format!(").data,
      (", Self::NAME, "
        ++ joinSep ", " (p.args.map (fun a => "self." ++ a.identifier ++ ".fzn()"))
        ++ ")\n" ++ TAB ++ "\x7d\n" ++ "\x7d\n").data, ?_⟩
    unfold Predicate.rust_impl_flatzinc
    simp [strData_append, List.append_assoc]

theorem c1_amended_serializer_render_witness :
  fzn_render predIntEq ["1", "2"] =
    predIntEq.identifier ++ "(" ++ joinSep ", " (["1", "2"].map rustDebugStr)
      ++ ");\n" ∧
  List.IsInfix (fznFormatLiteral predIntEq.args.length).data
    (predIntEq.rust_impl_flatzinc).data :=
  c1_amended_serializer_render predIntEq ["1", "2"] rfl

/-- Claim C1 counterexample: for the parsed predicate `int_eq(int: a,
int: b)` whose two argument serializations render as `"1"` and `"2"`, the
emitted serializer produces `int_eq("1", "2");\n` — with a semicolon
before the newline and `Debug`-quoted arguments — not the
`int_eq(1, 2)\n` the claim prescribes. -/
theorem c1_counterexample :
  Predicate.from_str "predicate int_eq(int: a, int: b)" = .ok predIntEq ∧
  fzn_render predIntEq ["1", "2"] = "int_eq(\"1\", \"2\");\n" ∧
  fzn_render_spec predIntEq ["1", "2"] = "int_eq(1, 2)\n" ∧
  fzn_render predIntEq ["1", "2"] ≠ fzn_render_spec predIntEq ["1", "2"] :=
  ⟨rfl, rfl, rfl, by decide⟩
end FznGen
